import Mathlib

/-!
Verification of the fast-server HTTP core against its specification.

Go strings and byte slices are modelled as `List Char`; Go maps are
modelled as association lists whose update replaces the first matching
key, which preserves lookup semantics.  Fallible or panicking Go code is
modelled with explicit result types carrying a constructor for a runtime
panic.  Loops that walk a mutable tree are modelled with an explicit
fuel parameter; concrete evaluations use ample fuel.
-/

namespace FastServer

/-! ## Generic helpers: association lists, byte search, trimming -/

/-- Go map assignment: replace the first binding of the key, else append. -/
def aput {α β : Type} [DecidableEq α] : List (α × β) → α → β → List (α × β)
  | [], k, v => [(k, v)]
  | (k', v') :: rest, k, v =>
    if k' = k then (k, v) :: rest else (k', v') :: aput rest k v

/-- Go map read with the zero value as default (string maps give ""). -/
def alookup {α β : Type} [DecidableEq α] : List (α × β) → α → Option β
  | [], _ => none
  | (k', v') :: rest, k => if k' = k then some v' else alookup rest k

/-- bytes.IndexByte: index of the first occurrence of a byte, if any. -/
def indexByte : List Char → Char → Option Nat
  | [], _ => none
  | c :: rest, b =>
    if c = b then some 0 else (indexByte rest b).map (· + 1)

/-- bytes.Index: index of the first occurrence of a subslice, if any. -/
def indexOfSub : List Char → List Char → Option Nat
  | _, [] => some 0
  | [], _ :: _ => none
  | c :: rest, sub =>
    if sub.isPrefixOf (c :: rest) then some 0
    else (indexOfSub rest sub).map (· + 1)

/-- ASCII whitespace as used by bytes.TrimSpace on header bytes. -/
def isSpaceChar (c : Char) : Bool :=
  c == ' ' || c == '\t' || c == '\n' || c == '\x0b' || c == '\x0c' || c == '\r'

/-- bytes.TrimSpace: drop leading and trailing whitespace. -/
def trimSpace (l : List Char) : List Char :=
  ((l.dropWhile isSpaceChar).reverse.dropWhile isSpaceChar).reverse

/-! ## Request (core/http, Request struct, Reset, SetHeader) -/

/-- Embedding of the Go struct http.Request. -/
structure Request where
  method : List Char := []
  path : List Char := []
  proto : List Char := []
  contentType : List Char := []
  contentLength : List Char := []
  userAgent : List Char := []
  accept : List Char := []
  host : List Char := []
  connection : List Char := []
  extraHeaders : List (List Char × List Char) := []
  query : List (List Char × List Char) := []
  body : List Char := []
deriving DecidableEq, Repr

/-- A fresh (or pool-reset) Request: every field at its zero value. -/
def emptyRequest : Request := {}

/-- Request.Reset: clear every scalar field, empty both maps, truncate body. -/
def Request.reset (_r : Request) : Request := {}

/-- Request.SetHeader: route the six known names to predefined fields,
everything else into the extras mapping. -/
def Request.setHeader (r : Request) (key value : List Char) : Request :=
  if key = "Content-Type".data then { r with contentType := value }
  else if key = "Content-Length".data then { r with contentLength := value }
  else if key = "User-Agent".data then { r with userAgent := value }
  else if key = "Accept".data then { r with accept := value }
  else if key = "Host".data then { r with host := value }
  else if key = "Connection".data then { r with connection := value }
  else { r with extraHeaders := aput r.extraHeaders key value }

/-! ## HTTP parser (core/http/parser.go) -/

/-- parseQuery: split the query string on ampersands into key and
optional value; a pair without an equals sign binds the empty string. -/
def parseQuery (r : Request) (path : List Char) (idx : Nat) :
    List Char × Request :=
  let queryStr := path.drop (idx + 1)
  let path' := path.take idx
  let pairs := queryStr.splitOn '&'
  let q := pairs.foldl
    (fun (q : List (List Char × List Char)) pair =>
      match indexByte pair '=' with
      | some i => aput q (pair.take i) (pair.drop (i + 1))
      | none => aput q pair []) r.query
  (path', { r with query := q })

/-- parseHeaders: walk the header block line by line, strip a trailing
carriage return, stop at an empty line, split each line at the first
colon when it is at a positive index, trim both sides, and store via
SetHeader.  Recursion is on the remaining buffer, which shrinks every step. -/
def parseHeaders (r : Request) (data : List Char) : Request :=
  if hne : data = [] then r
  else
    let lineEnd := (indexByte data '\n').getD data.length
    let line0 := data.take lineEnd
    let line := if line0 ≠ [] ∧ line0.getLast? = some '\r'
                then line0.dropLast else line0
    if line = [] then r
    else
      let r' := match indexByte line ':' with
        | some colon =>
          if 0 < colon then
            r.setHeader (trimSpace (line.take colon))
              (trimSpace (line.drop (colon + 1)))
          else r
        | none => r
      if lineEnd = data.length then r'
      else parseHeaders r' (data.drop (lineEnd + 1))
termination_by data.length
decreasing_by
  simp only [List.length_drop]
  have hpos : 0 < data.length := List.length_pos.mpr hne
  omega

/-- Result of ParseRequest: a parsed request, the invalid-request error,
or a Go runtime panic. -/
inductive ParseRes where
  | ok (r : Request)
  | err
  | panicked
deriving DecidableEq, Repr

/-- ParseRequest.  Faithful points: the start line is cut at the first
newline; the trailing-carriage-return strip indexes line at length - 1
WITHOUT an emptiness guard, so a buffer whose first byte is a newline
hits an index-out-of-range runtime panic; the header block is located by
the first CRLFCRLF, else by the first LFLF, and headers are parsed ONLY in
the CRLFCRLF branch. -/
def parseRequest (data : List Char) : ParseRes :=
  match indexByte data '\n' with
  | none => .err
  | some lineEnd =>
    let line0 := data.take lineEnd
    match line0.getLast? with
    | none => .panicked
    | some last =>
      let line := if last = '\r' then line0.dropLast else line0
      match indexByte line ' ' with
      | none => .err
      | some sp1 =>
        match indexByte (line.drop (sp1 + 1)) ' ' with
        | none => .err
        | some sp2r =>
          let req0 : Request :=
            { emptyRequest with
                method := line.take sp1
                path := (line.drop (sp1 + 1)).take sp2r
                proto := line.drop (sp1 + 1 + sp2r + 1) }
          let (path', req1) :=
            match indexByte req0.path '?' with
            | some qi => parseQuery req0 req0.path qi
            | none => (req0.path, req0)
          let req2 := { req1 with path := path' }
          let rest := data.drop (lineEnd + 1)
          match indexOfSub rest "\r\n\r\n".data with
          | some he =>
            let req3 := parseHeaders req2 (rest.take he)
            .ok { req3 with body := rest.drop (he + 4) }
          | none =>
            match indexOfSub rest "\n\n".data with
            | some he2 => .ok { req2 with body := rest.drop (he2 + 2) }
            | none => .err

/-! ## Spec-level header routing (refinement target, from spec section 4.6:
headers are split at the first colon, whitespace is trimmed, known header
names are routed to the predefined fields, all others to extras) -/

/-- Modelled from the spec words for one parsed header name and value. -/
def specRouteHeader (r : Request) (name value : List Char) : Request :=
  if name = "Content-Type".data then { r with contentType := value }
  else if name = "Content-Length".data then { r with contentLength := value }
  else if name = "User-Agent".data then { r with userAgent := value }
  else if name = "Accept".data then { r with accept := value }
  else if name = "Host".data then { r with host := value }
  else if name = "Connection".data then { r with connection := value }
  else { r with extraHeaders := aput r.extraHeaders name value }

/-- Spec-level treatment of one header line: split at the first colon
when at a positive index, trim name and value, route by name. -/
def specHeaderLine (r : Request) (line : List Char) : Request :=
  match indexByte line ':' with
  | some colon =>
    if 0 < colon then
      specRouteHeader r (trimSpace (line.take colon))
        (trimSpace (line.drop (colon + 1)))
    else r
  | none => r

/-- Join header lines with CRLF separators, no trailing separator,
exactly the shape ParseRequest hands to parseHeaders. -/
def joinCRLF : List (List Char) → List Char
  | [] => []
  | [l] => l
  | l :: ls => l ++ '\r' :: '\n' :: joinCRLF ls

/-! ## Radix router (core/router/radix.go)

Handlers are identified by natural numbers; the handlers field embeds the
Go map from method to handler.  The mutable tree walk of addRoute and
getValue is modelled with a fuel parameter; fuelOut marks a walk that
would not have finished within the given fuel. -/

/-- Node kinds of the route tree. -/
inductive NodeType where
  | static
  | param
  | catchAll
deriving DecidableEq, Repr

/-- Embedding of the Go struct router.node. -/
inductive RNode where
  | mk (path indices : List Char) (children : List RNode)
      (handlers : List (String × Nat)) (priority : Nat)
      (nType : NodeType) (paramName : List Char)

def RNode.path : RNode → List Char
  | .mk p _ _ _ _ _ _ => p

def RNode.indices : RNode → List Char
  | .mk _ i _ _ _ _ _ => i

def RNode.children : RNode → List RNode
  | .mk _ _ c _ _ _ _ => c

def RNode.handlers : RNode → List (String × Nat)
  | .mk _ _ _ h _ _ _ => h

def RNode.priority : RNode → Nat
  | .mk _ _ _ _ p _ _ => p

def RNode.nType : RNode → NodeType
  | .mk _ _ _ _ _ t _ => t

def RNode.paramName : RNode → List Char
  | .mk _ _ _ _ _ _ n => n

/-- The zero node, also the root made by NewRadixRouter. -/
def emptyNode : RNode := .mk [] [] [] [] 0 .static []

/-- Scan a wildcard segment after its leading colon or star: stop at a
slash, and record invalidity when another colon or star appears. -/
def wildScanAux : List Char → List Char → Bool → List Char × Bool
  | [], acc, valid => (acc, valid)
  | c :: cs, acc, valid =>
    if c = '/' then (acc, valid)
    else wildScanAux cs (acc ++ [c]) (if c = ':' ∨ c = '*' then false else valid)

def findWildcardAux : List Char → Nat → Option (List Char × Nat × Bool)
  | [], _ => none
  | c :: rest, start =>
    if c = ':' ∨ c = '*' then
      let sv := wildScanAux rest [] true
      some (c :: sv.1, start, sv.2)
    else findWildcardAux rest (start + 1)

/-- findWildcard: the first wildcard of the pattern, its start index, and
whether the segment holds no second colon or star. -/
def findWildcard (path : List Char) : Option (List Char × Nat × Bool) :=
  findWildcardAux path 0

/-- Length of the longest common prefix of two byte strings
(source function longestCommonPrefix). -/
def lcpLen : List Char → List Char → Nat
  | a :: as, b :: bs => if a = b then lcpLen as bs + 1 else 0
  | _, _ => 0

/-- Result of a route insertion: the new subtree, a configuration panic,
or fuel exhaustion. -/
inductive AddRes where
  | ok (n : RNode)
  | panicked (msg : String)
  | fuelOut

/-- node.insertChild: insert the remaining pattern below a node that owns
no conflicting edge yet, peeling wildcards one at a time. -/
def insertChild (fuel : Nat) (n : RNode) (method : String)
    (path : List Char) (handler : Nat) : AddRes :=
  match fuel with
  | 0 => .fuelOut
  | fuel + 1 =>
    match findWildcard path with
    | none =>
      .ok (.mk path n.indices n.children (aput n.handlers method handler)
            n.priority n.nType n.paramName)
    | some (wildcard, i, valid) =>
      if valid = false then
        .panicked "only one wildcard per path segment is allowed"
      else if wildcard.length < 2 then
        .panicked "wildcards must be named"
      else if wildcard.head? = some ':' then
        -- the node path and the insertion path are re-sliced only when
        -- the wildcard is not at the front
        let nPath := if 0 < i then path.take i else n.path
        let path1 := if 0 < i then path.drop i else path
        if wildcard.length < path1.length then
          -- a non-wildcard subpath follows; the loop continues on a fresh
          -- child below the new param node
          match insertChild fuel (RNode.mk [] [] [] [] 1 .static []) method
              (path1.drop wildcard.length) handler with
          | .ok sub =>
            .ok (.mk nPath n.indices
                  (n.children ++ [.mk wildcard [] [sub] [] 1 .param (wildcard.drop 1)])
                  n.handlers n.priority n.nType n.paramName)
          | e => e
        else
          .ok (.mk nPath n.indices
                (n.children ++
                  [.mk wildcard [] [] (aput [] method handler) 1 .param (wildcard.drop 1)])
                n.handlers n.priority n.nType n.paramName)
      else
        -- catch-all
        if i + wildcard.length ≠ path.length then
          .panicked "catch-all routes are only allowed at the end of the path"
        else if n.path ≠ [] ∧ n.path.getLast? = some '/' then
          .ok (.mk (path.take i) n.indices
                (n.children ++
                  [.mk wildcard [] [] (aput [] method handler) 1 .catchAll (wildcard.drop 1)])
                n.handlers n.priority n.nType n.paramName)
        else
          .panicked "catch-all conflicts with existing handle for the path segment"

/-- The walking loop of node.addRoute: split the edge when the common
prefix is shorter than the node path, then descend by the next byte via
the indices string, or insert a new child. -/
def addRouteLoop (fuel : Nat) (n : RNode) (method : String)
    (path : List Char) (handler : Nat) : AddRes :=
  match fuel with
  | 0 => .fuelOut
  | fuel + 1 =>
    let i := lcpLen path n.path
    -- split edge: the suffix of the node path moves into a fresh child;
    -- the Go literal omits paramName on the child, so it resets to empty
    let n1 : RNode :=
      if i < n.path.length then
        .mk (path.take i) [n.path.getD i ' ']
          [.mk (n.path.drop i) n.indices n.children n.handlers
            (n.priority - 1) n.nType []]
          [] n.priority .static n.paramName
      else n
    if i < path.length then
      let path1 := path.drop i
      if n1.nType = .param then
        -- source line: bump priority and rerun the loop on the same node
        addRouteLoop fuel
          (.mk n1.path n1.indices n1.children n1.handlers (n1.priority + 1)
            n1.nType n1.paramName) method path1 handler
      else
        match path1.head? with
        | none => .panicked "index out of range"
        | some idxc =>
          -- the slash-after-param special case in the source is dead here,
          -- since the param node type was handled just above
          match indexByte n1.indices idxc with
          | some j =>
            match n1.children.get? j with
            | some child =>
              match addRouteLoop fuel child method path1 handler with
              | .ok child1 =>
                .ok (.mk n1.path n1.indices (n1.children.set j child1)
                      n1.handlers (n1.priority + 1) n1.nType n1.paramName)
              | e => e
            | none => .panicked "index out of range"
          | none =>
            if idxc ≠ ':' ∧ idxc ≠ '*' then
              -- append the index byte and a fresh static child
              match insertChild fuel emptyNode method path1 handler with
              | .ok child1 =>
                .ok (.mk n1.path (n1.indices ++ [idxc])
                      (n1.children ++ [child1]) n1.handlers n1.priority
                      n1.nType n1.paramName)
              | e => e
            else
              insertChild fuel n1 method path1 handler
    else
      .ok (.mk n1.path n1.indices n1.children (aput n1.handlers method handler)
            n1.priority n1.nType n1.paramName)

/-- node.addRoute: an empty tree is filled directly by insertChild and
marked static, otherwise the walking loop runs. -/
def addRoute (fuel : Nat) (n : RNode) (method : String) (path : List Char)
    (handler : Nat) : AddRes :=
  if n.path.isEmpty && n.children.isEmpty then
    match insertChild fuel n method path handler with
    | .ok n1 =>
      .ok (.mk n1.path n1.indices n1.children n1.handlers n1.priority
            .static n1.paramName)
    | e => e
  else addRouteLoop fuel n method path handler

/-- RadixRouter.Add: patterns whose first byte is not a slash panic before
any mutation of the tree; the empty pattern hits the index panic of the
first-byte read. -/
def radixAdd (fuel : Nat) (root : RNode) (method : String) (path : List Char)
    (handler : Nat) : AddRes :=
  match path with
  | [] => .panicked "index out of range"
  | c :: _ =>
    if c ≠ '/' then .panicked "path must begin with slash"
    else addRoute fuel root method path handler

/-- Result of a route lookup. -/
inductive FindRes where
  | found (handler : Nat) (params : List (List Char × List Char))
  | notFound
  | panicked
  | fuelOut
deriving DecidableEq, Repr

/-- node.getValue: descend by matched node path, then by the next byte via
the indices string; on a miss use the last child when it is a wildcard;
bind param and catch-all captures into the params mapping. -/
def getValue (fuel : Nat) (n : RNode) (method : String) (path : List Char)
    (params : List (List Char × List Char)) : FindRes :=
  match fuel with
  | 0 => .fuelOut
  | fuel + 1 =>
    let pre := n.path
    if pre.length < path.length ∧ path.take pre.length = pre then
      let path1 := path.drop pre.length
      match path1.head? with
      | none => .panicked
      | some idxc =>
        match indexByte n.indices idxc with
        | some j =>
          match n.children.get? j with
          | some child => getValue fuel child method path1 params
          | none => .panicked
        | none =>
          match n.children.getLast? with
          | some lastChild =>
            if lastChild.nType ≠ .static then
              match lastChild.nType with
              | .param =>
                -- consume up to the next slash or the end of the path
                let endIdx := (indexByte path1 '/').getD path1.length
                let params1 := aput params lastChild.paramName (path1.take endIdx)
                if endIdx < path1.length then
                  match lastChild.children.head? with
                  | some c0 => getValue fuel c0 method (path1.drop endIdx) params1
                  | none => .notFound
                else
                  match alookup lastChild.handlers method with
                  | some h => .found h params1
                  | none => .notFound
              | .catchAll =>
                let params1 := aput params lastChild.paramName path1
                match alookup lastChild.handlers method with
                | some h => .found h params1
                | none => .notFound
              | .static => .panicked
            else .notFound
          | none => .notFound
    else
      if path = pre then
        match alookup n.handlers method with
        | some h => .found h params
        | none => .notFound
      else .notFound

/-- RadixRouter.Find on a router built by successive Add calls. -/
def radixFind (fuel : Nat) (root : RNode) (method : String)
    (path : List Char) : FindRes :=
  getValue fuel root method path []

/-! ## FDContext (core/http/context_fd.go) -/

/-- A Go byte slice reduced to its logical content plus the capacity of
its backing array.  The capacity after an append is only known to be at
least the length; the model keeps the maximum of the old capacity and
the new length. -/
structure RespBuf where
  data : List Char := []
  cap : Nat := 0
deriving DecidableEq, Repr

/-- Embedding of the Go struct http.FDContext.  The two fixed arrays of
four parameter slots are lists of length four; entries at positions at
or beyond paramCount are stale storage, invisible to Param. -/
structure FDContext where
  fd : Int := 0
  request : Option Request := none
  paramKeys : List (List Char) := [[], [], [], []]
  paramValues : List (List Char) := [[], [], [], []]
  paramCount : Nat := 0
  paramMapOverflow : List (List Char × List Char) := []
  responseBuf : RespBuf := {}
  responseHeaders : List (List Char × List Char) := []
  statusCode : Int := 0
  aborted : Bool := false
deriving DecidableEq, Repr

/-- FDContext.Param: scan the first paramCount (at most four) inline
slots, then the overflow mapping; a missing key reads as empty. -/
def FDContext.paramGet (c : FDContext) (key : List Char) : List Char :=
  match ((c.paramKeys.zip c.paramValues).take (min c.paramCount 4)).find?
      (fun kv => kv.1 = key) with
  | some kv => kv.2
  | none => (alookup c.paramMapOverflow key).getD []

/-- FDContext.SetParam: fill the next inline slot below four, else spill
into the overflow mapping. -/
def FDContext.setParam (c : FDContext) (key value : List Char) : FDContext :=
  if c.paramCount < 4 then
    { c with paramKeys := c.paramKeys.set c.paramCount key,
             paramValues := c.paramValues.set c.paramCount value,
             paramCount := c.paramCount + 1 }
  else
    { c with paramMapOverflow := aput c.paramMapOverflow key value }

/-- FDContext.SetHeader: record the response header in the map; the
emitters below are the ones that would have to write it out. -/
def FDContext.setHeader (c : FDContext) (key value : List Char) : FDContext :=
  { c with responseHeaders := aput c.responseHeaders key value }

/-- FDContext.Status. -/
def FDContext.status (c : FDContext) (code : Int) : FDContext :=
  { c with statusCode := code }

/-- FDContext.Abort. -/
def FDContext.abort (c : FDContext) : FDContext :=
  { c with aborted := true }

/-- FDContext.Reset: rebind fd and request, zero the inline parameter
count without clearing the slots, empty both maps, truncate the response
buffer keeping its capacity, and restore status 200 and the live flag. -/
def FDContext.reset (c : FDContext) (fd : Int) (req : Option Request) :
    FDContext :=
  { c with fd := fd, request := req, paramCount := 0,
           paramMapOverflow := [],
           responseHeaders := [],
           responseBuf := { data := [], cap := c.responseBuf.cap },
           statusCode := 200, aborted := false }

/-- statusText: the reason phrase table. -/
def statusText (code : Int) : List Char :=
  if code = 200 then "OK".data
  else if code = 201 then "Created".data
  else if code = 400 then "Bad Request".data
  else if code = 404 then "Not Found".data
  else if code = 500 then "Internal Server Error".data
  else "Unknown".data

def digitChar (n : Nat) : Char := Char.ofNat (48 + n)

def natCharsAux : Nat → Nat → List Char
  | 0, _ => []
  | fuel + 1, n =>
    if n = 0 then [] else natCharsAux fuel (n / 10) ++ [digitChar (n % 10)]

/-- Decimal digits of a positive number, most significant first. -/
def natChars (n : Nat) : List Char := natCharsAux (n + 1) n

/-- appendInt: append the base-ten form, with a leading minus for
negative numbers and the single digit zero for zero. -/
def appendInt (b : List Char) (i : Int) : List Char :=
  if i = 0 then b ++ ['0']
  else if i < 0 then b ++ '-' :: natChars (-i).toNat
  else b ++ natChars i.toNat

/-- FDContext.String (named stringResp here): truncate the buffer, then
append status line, a fixed text-plain content type, the content length,
a blank line and the body.  The user-set responseHeaders map is not
consulted.  The socket write is outside the model. -/
def FDContext.stringResp (c : FDContext) (code : Int) (s : List Char) :
    FDContext :=
  let buf := appendInt ("HTTP/1.1 ".data) code ++ ' ' :: statusText code
      ++ "\r\n".data
      ++ "Content-Type: text/plain\r\n".data
      ++ appendInt ("Content-Length: ".data) (Int.ofNat s.length)
      ++ "\r\n\r\n".data ++ s
  { c with responseBuf := { data := buf, cap := max c.responseBuf.cap buf.length } }

/-- FDContext.Data: same framing with a caller-chosen content type.  The
user-set responseHeaders map is again not consulted. -/
def FDContext.dataResp (c : FDContext) (code : Int) (contentType data : List Char) :
    FDContext :=
  let buf := appendInt ("HTTP/1.1 ".data) code ++ ' ' :: statusText code
      ++ "\r\n".data
      ++ "Content-Type: ".data ++ contentType ++ "\r\n".data
      ++ appendInt ("Content-Length: ".data) (Int.ofNat data.length)
      ++ "\r\n\r\n".data ++ data
  { c with responseBuf := { data := buf, cap := max c.responseBuf.cap buf.length } }

/-! ## Middleware pipeline (core/middleware/pipeline.go)

A handler either returns normally with the context in its new state or
panics, leaving the context as it was at the moment of the panic. -/

/-- Outcome of running one handler. -/
inductive HRes where
  | norm (c : FDContext)
  | panicked (c : FDContext)

/-- HandlerFunc of the middleware package. -/
def Mw : Type := FDContext → HRes

/-- Outcome of the middleware loop of Execute. -/
inductive MwsRes where
  | through (c : FDContext)
  | stopped (c : FDContext)
  | panicked (c : FDContext)

/-- The loop of Pipeline.Execute: run each middleware in order; a panic
propagates; a set aborted flag returns early. -/
def runMws : List Mw → FDContext → MwsRes
  | [], c => .through c
  | m :: ms, c =>
    match m c with
    | .panicked c1 => .panicked c1
    | .norm c1 => if c1.aborted then .stopped c1 else runMws ms c1

/-- Outcome of Pipeline.Execute as seen by its caller. -/
inductive ExecRes where
  | done (c : FDContext)
  | panicked (c : FDContext)

/-- Pipeline.Execute: empty pipelines call the final handler directly;
otherwise the loop runs and the final handler follows when the context
is not aborted. -/
def execute (p : List Mw) (finalHandler : Mw) (c : FDContext) : ExecRes :=
  if p.length = 0 then
    match finalHandler c with
    | .norm c1 => .done c1
    | .panicked c1 => .panicked c1
  else
    match runMws p c with
    | .panicked c1 => .panicked c1
    | .stopped c1 => .done c1
    | .through c1 =>
      if ¬ c1.aborted then
        match finalHandler c1 with
        | .norm c2 => .done c2
        | .panicked c2 => .panicked c2
      else .done c1

/-- The Recovery middleware.  Its Go body only registers a deferred
recover and returns; the deferred function runs when Recovery itself
returns, before any downstream handler has run, finds no panic in
flight, and does nothing.  As a pipeline element it is therefore the
identity: it never observes a panic of a later handler. -/
def recoveryMw : Mw := fun c => .norm c

/-! ## Byte pool (core/pools, BytePool) -/

/-- A Go byte slice reduced to length and capacity; the contents do not
matter to the pool. -/
structure GoSlice where
  len : Nat
  cap : Nat
deriving DecidableEq, Repr

/-- The standard size tiers. -/
def defaultSizes : List Nat := [512, 2048, 8192, 32768]

/-- The byte pool: each size class paired with its free list, in tier
order, exactly as NewBytePoolWithSizes builds the two parallel arrays. -/
structure BytePool where
  classes : List (Nat × List GoSlice)
deriving DecidableEq, Repr

/-- NewBytePool: the four standard tiers, every free list empty. -/
def newBytePool : BytePool :=
  ⟨defaultSizes.map (fun s => (s, []))⟩

/-- The scan of BytePool.Put: find the first class whose size equals the
capacity of the buffer; re-slice the buffer to its full capacity and
push it there; leave the pool unchanged when no class matches. -/
def bytePoolPutAux : List (Nat × List GoSlice) → GoSlice → List (Nat × List GoSlice)
  | [], _ => []
  | (s, l) :: rest, buf =>
    if buf.cap = s then (s, ⟨s, s⟩ :: l) :: rest
    else (s, l) :: bytePoolPutAux rest buf

/-- BytePool.Put. -/
def BytePool.put (bp : BytePool) (buf : GoSlice) : BytePool :=
  ⟨bytePoolPutAux bp.classes buf⟩

/-! ## Engine keep-alive and close (Engine.checkKeepAlive,
Engine.closeConnection) -/

/-- Connection states (iota constants of the engine). -/
def StateReading : Nat := 0

def StateProcessing : Nat := 1

def StateWriting : Nat := 2

def StateKeepalive : Nat := 3

/-- Embedding of the Go struct core.Connection. -/
structure Connection where
  fd : Int := -1
  state : Nat := StateReading
  readBuf : Option GoSlice := none
  readOffset : Nat := 0
  request : Option Request := none
  context : Option FDContext := none
  lastActive : Nat := 0
  keepAlive : Bool := false
  closeAfter : Bool := false
deriving DecidableEq, Repr

/-- Connection.Reset: every field back to its pooled zero state. -/
def Connection.resetConn (_c : Connection) : Connection := {}

/-- The reset the engine request pool applies on Put: only method, path,
proto and body are cleared; headers and query survive. -/
def engineRequestReset (r : Request) : Request :=
  { r with method := [], path := [], proto := [], body := [] }

/-- The state of the engine touched by keep-alive handling.  Pools are
the multisets of idle objects they hold, most recent first; closedFds
records the close system calls; now is the current clock reading used
for time.Now. -/
structure Engine where
  connections : List (Int × Connection) := []
  pollerFds : List Int := []
  closedFds : List Int := []
  contextPoolIdle : List FDContext := []
  requestPoolIdle : List Request := []
  bytePool : BytePool := newBytePool
  connectionPoolIdle : List Connection := []
  httpRequestPoolIdle : List Request := []
  now : Nat := 0
deriving DecidableEq, Repr

/-- Engine.closeConnection: look the fd up in the connection table; when
present, delete it, deregister the fd from the poller, hand request,
context and read buffer back to their pools (each pool applies its reset
on Put), close the fd, reset the Connection and return it to the
connection pool.  An unknown fd is a no-op. -/
def Engine.closeConnection (e : Engine) (fd : Int) : Engine :=
  match alookup e.connections fd with
  | none => e
  | some conn =>
    let e1 := { e with connections := e.connections.filter (fun kv => kv.1 ≠ fd),
                       pollerFds := e.pollerFds.filter (· ≠ fd) }
    let e2 := match conn.request with
      | some req => { e1 with requestPoolIdle := engineRequestReset req :: e1.requestPoolIdle }
      | none => e1
    let e3 := match conn.context with
      | some ctx => { e2 with contextPoolIdle := ctx.reset 0 none :: e2.contextPoolIdle }
      | none => e2
    let e4 := match conn.readBuf with
      | some b => { e3 with bytePool := e3.bytePool.put b }
      | none => e3
    let e5 := { e4 with closedFds := fd :: e4.closedFds }
    { e5 with connectionPoolIdle := conn.resetConn :: e5.connectionPoolIdle }

/-- Outcome of Engine.checkKeepAlive: a nil request panics; otherwise
either the connection is closed through the engine, or it is recycled
for the next request. -/
inductive KAResult where
  | panicked
  | closed (e : Engine)
  | keep (conn : Connection) (e : Engine)
deriving DecidableEq, Repr

/-- Engine.checkKeepAlive: close when the request protocol is HTTP/1.0 or
its Connection header is close; otherwise set the connection back to
Reading, zero its read offset, release the request through the package
pool (http.ReleaseRequest resets it fully), detach it, and refresh the
last-active stamp with the current time. -/
def Engine.checkKeepAlive (e : Engine) (conn : Connection) : KAResult :=
  match conn.request with
  | none => .panicked
  | some req =>
    if req.proto = "HTTP/1.0".data ∨ req.connection = "close".data then
      .closed (e.closeConnection conn.fd)
    else
      .keep
        { conn with state := StateReading, readOffset := 0, request := none,
                    lastActive := e.now }
        { e with httpRequestPoolIdle := req.reset :: e.httpRequestPoolIdle }

/-! ## Concrete scenarios used by the claim theorems -/

/-- Route set of the shared-prefix scenario: the param route is
registered first, the static sibling second, as Add permits. -/
def c1Tree : AddRes :=
  match radixAdd 64 emptyNode "GET" "/u/:id".data 1 with
  | .ok n => radixAdd 64 n "GET" "/u/x".data 2
  | e => e

/-- Lookup in the shared-prefix scenario; none would mean registration
itself failed. -/
def c1Find (p : String) : Option FindRes :=
  match c1Tree with
  | .ok n => some (radixFind 64 n "GET" p.data)
  | _ => none

/-- A terminal handler that panics at once, leaving the context as it
received it. -/
def panicHandlerMw : Mw := fun c => .panicked c

/-- The pooled-and-reset context of the SetHeader scenario. -/
def c4Start : FDContext := FDContext.reset {} 0 none

/-- The context after the middleware-style SetHeader call. -/
def c4Ctx : FDContext := c4Start.setHeader "X-Request-ID".data "1".data

/-- The context after emitting a text response. -/
def c4Out : FDContext := c4Ctx.stringResp 200 "hi".data

/-- A request carrying the HTTP/1.0 protocol marker. -/
def reqClose : Request := { emptyRequest with proto := "HTTP/1.0".data }

/-- A keep-alive HTTP/1.1 request. -/
def reqKeep : Request := { emptyRequest with proto := "HTTP/1.1".data }

def connClose : Connection :=
  { fd := 5, request := some reqClose, readBuf := some ⟨10, 8192⟩ }

def connKeep : Connection := { fd := 7, request := some reqKeep }

def engClose : Engine := { connections := [(5, connClose)], pollerFds := [5] }

def engKeep : Engine := { now := 42 }

/-- Middleware that aborts the context and returns normally. -/
def abortingMw : Mw := fun c => .norm c.abort

/-- Middleware that does nothing. -/
def idMw : Mw := fun c => .norm c

/-! ## Shared lemmas -/

theorem runMws_append (a b : List Mw) (c : FDContext) :
    runMws (a ++ b) c =
      match runMws a c with
      | .through c1 => runMws b c1
      | r => r := by
  induction a generalizing c with
  | nil => simp [runMws]
  | cons m ms ih =>
    simp only [List.cons_append, runMws]
    cases m c with
    | panicked c1 => rfl
    | norm c1 =>
      by_cases h : c1.aborted = true
      · simp [h]
      · simp only [Bool.not_eq_true] at h
        simp [h, ih]

theorem indexByte_of_not_mem {l : List Char} {b : Char} (h : b ∉ l) :
    indexByte l b = none := by
  induction l with
  | nil => rfl
  | cons c cs ih =>
    simp only [List.mem_cons, not_or] at h
    simp [indexByte, Ne.symm h.1, ih h.2]

theorem indexByte_append_crlf (l rest : List Char) (h : '\n' ∉ l) :
    indexByte (l ++ '\r' :: '\n' :: rest) '\n' = some (l.length + 1) := by
  induction l with
  | nil => rfl
  | cons c cs ih =>
    simp only [List.mem_cons, not_or] at h
    have hc : ¬ (c = '\n') := fun hh => h.1 hh.symm
    simp [indexByte, hc, ih h.2]

theorem setHeader_eq_specRoute (r : Request) (k v : List Char) :
    r.setHeader k v = specRouteHeader r k v := rfl

theorem alookup_filter_self {β : Type} (l : List (Int × β)) (k : Int) :
    alookup (l.filter (fun kv => kv.1 ≠ k)) k = none := by
  simp only [ne_eq, decide_not]
  induction l with
  | nil => rfl
  | cons p rest ih =>
    obtain ⟨pk, pv⟩ := p
    simp only [List.filter_cons]
    by_cases h : pk = k
    · simpa [h] using ih
    · simp [h, alookup, ih]

theorem not_mem_filter_self (l : List Int) (k : Int) :
    k ∉ l.filter (· ≠ k) := by
  intro hmem
  have := List.of_mem_filter hmem
  simp at this

theorem parseHeaders_last (r : Request) (l : List Char) (hl : l ≠ [])
    (hn : '\n' ∉ l) (hr : l.getLast? ≠ some '\r') :
    parseHeaders r l = specHeaderLine r l := by
  have hline : (if l ≠ [] ∧ l.getLast? = some '\r' then l.dropLast else l) = l :=
    if_neg (fun hh => hr hh.2)
  rw [parseHeaders, dif_neg hl]
  simp only [indexByte_of_not_mem hn, Option.getD_none, List.take_length, hline,
    if_neg hl, eq_self_iff_true, if_true]
  cases hcol : indexByte l ':' with
  | none => simp [specHeaderLine, hcol]
  | some colon => simp [specHeaderLine, hcol, setHeader_eq_specRoute]

theorem parseHeaders_cons (r : Request) (l rest : List Char) (hl : l ≠ [])
    (hn : '\n' ∉ l) :
    parseHeaders r (l ++ '\r' :: '\n' :: rest)
      = parseHeaders (specHeaderLine r l) rest := by
  have hne : l ++ '\r' :: '\n' :: rest ≠ [] := by simp
  have htake : (l ++ '\r' :: '\n' :: rest).take (l.length + 1) = l ++ ['\r'] := by
    rw [List.take_append_eq_append_take, List.take_of_length_le (by omega)]
    congr 1
    have h1 : l.length + 1 - l.length = 1 := by omega
    rw [h1]
    rfl
  have hdrop : (l ++ '\r' :: '\n' :: rest).drop (l.length + 1 + 1) = rest := by
    rw [List.drop_append_eq_append_drop, List.drop_of_length_le (by omega)]
    have h2 : l.length + 1 + 1 - l.length = 2 := by omega
    rw [h2]
    rfl
  have hlen : (l ++ '\r' :: '\n' :: rest).length = l.length + 1 + 1 + rest.length := by
    simp
    omega
  have hline : (if l ++ ['\r'] ≠ [] ∧ (l ++ ['\r']).getLast? = some '\r'
      then (l ++ ['\r']).dropLast else l ++ ['\r']) = l := by
    rw [if_pos ⟨by simp, List.getLast?_concat l⟩]
    exact List.dropLast_concat
  have hflen : ¬ (l.length + 1 = (l ++ '\r' :: '\n' :: rest).length) := by
    rw [hlen]
    omega
  have hlne : l ++ ['\r'] ≠ [] := by simp
  rw [parseHeaders, dif_neg hne, indexByte_append_crlf l rest hn]
  simp only [Option.getD_some, htake, hdrop, hline, if_neg hl, if_neg hflen]
  cases hcol : indexByte l ':' with
  | none => simp [specHeaderLine, hcol]
  | some colon => simp [specHeaderLine, hcol, setHeader_eq_specRoute]

/-! ## Claim theorems -/

/-- C1: with routes GET /u/:id then GET /u/x registered in that order
through Add, Find misses both the exact static path /u/x and the
parameter expansion /u/7, although both are expansions of registered
patterns.  The static insertion appended its index byte while the
earlier param child occupies the children slot that byte selects, so the
wildcard child is no longer last and the indices no longer align with
the children. -/
theorem c1_shared_prefix_unroutable :
    c1Find "/u/x" = some .notFound ∧ c1Find "/u/7" = some .notFound := by
  decide

/-- C2: a pipeline holding exactly the Recovery middleware does not
contain a panic of the terminal handler: Execute propagates the panic to
its caller, and the context emerges neither aborted nor holding any 500
response bytes. -/
theorem c2_recovery_does_not_catch :
    execute [recoveryMw] panicHandlerMw ({} : FDContext)
        = .panicked ({} : FDContext)
      ∧ ({} : FDContext).aborted = false
      ∧ ({} : FDContext).responseBuf.data = [] :=
  ⟨rfl, rfl, rfl⟩

/-- C3: ParseRequest returns the invalid-request error on the empty
buffer, but a buffer whose first byte is a newline drives the
trailing-carriage-return strip into an index-out-of-range panic. -/
theorem c3_parse_panics_on_leading_newline :
    parseRequest [] = .err ∧ parseRequest ['\n'] = .panicked := by
  decide

/-- C4: after SetHeader the emitted response bytes are exactly status
line, fixed Content-Type, Content-Length, blank line and body; the
user-set header is recorded in the responseHeaders map but never appears
in the emitted bytes. -/
theorem c4_setheader_dropped :
    c4Out.responseBuf.data
        = "HTTP/1.1 200 OK\r\nContent-Type: text/plain\r\nContent-Length: 2\r\n\r\nhi".data
      ∧ indexOfSub c4Out.responseBuf.data "X-Request-ID".data = none
      ∧ c4Ctx.responseHeaders = [("X-Request-ID".data, "1".data)] := by
  decide

/-- C5: checkKeepAlive closes the connection exactly when the request
protocol is HTTP/1.0 or its Connection header is close, in which case
closeConnection removes the fd from the table and the poller, returns
request, context and read buffer to their pools, closes the fd and
returns the reset Connection; otherwise the connection is reset to
Reading with a zero offset, its request is released and detached, and
the last-active stamp is refreshed. -/
theorem c5_keepalive_rules (e : Engine) (conn : Connection) (req : Request)
    (hreq : conn.request = some req) :
    ((req.proto = "HTTP/1.0".data ∨ req.connection = "close".data) →
      e.checkKeepAlive conn = .closed (e.closeConnection conn.fd)) ∧
    (∀ c, alookup e.connections conn.fd = some c →
      alookup (e.closeConnection conn.fd).connections conn.fd = none ∧
      conn.fd ∉ (e.closeConnection conn.fd).pollerFds ∧
      (e.closeConnection conn.fd).closedFds = conn.fd :: e.closedFds ∧
      (e.closeConnection conn.fd).connectionPoolIdle
        = c.resetConn :: e.connectionPoolIdle ∧
      (∀ r, c.request = some r →
        (e.closeConnection conn.fd).requestPoolIdle
          = engineRequestReset r :: e.requestPoolIdle) ∧
      (∀ x, c.context = some x →
        (e.closeConnection conn.fd).contextPoolIdle
          = x.reset 0 none :: e.contextPoolIdle) ∧
      (∀ b, c.readBuf = some b →
        (e.closeConnection conn.fd).bytePool = e.bytePool.put b)) ∧
    (¬ (req.proto = "HTTP/1.0".data ∨ req.connection = "close".data) →
      e.checkKeepAlive conn =
        .keep { conn with state := StateReading, readOffset := 0,
                          request := none, lastActive := e.now }
              { e with httpRequestPoolIdle := req.reset :: e.httpRequestPoolIdle }) := by
  refine ⟨fun hcond => ?_, fun c hc => ?_, fun hcond => ?_⟩
  · simp [Engine.checkKeepAlive, hreq, hcond]
  · have hl1 : alookup
        (List.filter (fun kv => !decide (kv.1 = conn.fd)) e.connections)
        conn.fd = none := by
      have h0 := alookup_filter_self e.connections conn.fd
      simpa using h0
    have hl2 : conn.fd ∉
        List.filter (fun x => !decide (x = conn.fd)) e.pollerFds := by
      have h0 := not_mem_filter_self e.pollerFds conn.fd
      simp only [ne_eq, decide_not] at h0
      exact h0
    rcases hcr : c.request with _ | r <;>
      rcases hcc : c.context with _ | x <;>
      rcases hcb : c.readBuf with _ | b <;>
      simp [Engine.closeConnection, hc, hcr, hcc, hcb, hl1, hl2]
  · simp [Engine.checkKeepAlive, hreq, hcond]

theorem c5_keepalive_rules_witness :
    (engClose.checkKeepAlive connClose
        = .closed (engClose.closeConnection connClose.fd)) ∧
    (alookup (engClose.closeConnection connClose.fd).connections connClose.fd
        = none) ∧
    (engKeep.checkKeepAlive connKeep =
      .keep { connKeep with state := StateReading, readOffset := 0,
                            request := none, lastActive := engKeep.now }
            { engKeep with
                httpRequestPoolIdle := reqKeep.reset :: engKeep.httpRequestPoolIdle }) := by
  have h1 := c5_keepalive_rules engClose connClose reqClose rfl
  have h2 := c5_keepalive_rules engKeep connKeep reqKeep rfl
  exact ⟨h1.1 (Or.inl rfl), ((h1.2.1) connClose rfl).1, h2.2.2 (by decide)⟩

/-- C6 counterexample: a complete request terminated by bare LF parses
successfully, yet its Host header line is not stored anywhere: the
predefined Host field of the result is empty, not the sent value. -/
theorem c6_lf_headers_skipped :
    parseRequest "GET / HTTP/1.1\nHost: x\n\n".data
        = .ok { emptyRequest with method := "GET".data, path := "/".data,
                                  proto := "HTTP/1.1".data }
      ∧ ({ emptyRequest with method := "GET".data, path := "/".data,
                             proto := "HTTP/1.1".data } : Request).host
          ≠ "x".data := by
  decide

/-- C6 (amended): on a CRLF-joined header block whose lines are nonempty,
newline-free and do not end in a carriage return, the parser handles
each line in order as the spec words demand: split at the first colon
when it sits at a positive index, trim whitespace on both sides, route
the six known names into the predefined fields and every other name
into the extras mapping. -/
theorem c6_crlf_headers_routed (r : Request) (ls : List (List Char))
    (h : ∀ l ∈ ls, l ≠ [] ∧ '\n' ∉ l ∧ l.getLast? ≠ some '\r') :
    parseHeaders r (joinCRLF ls) = ls.foldl specHeaderLine r := by
  induction ls generalizing r with
  | nil =>
    simp [joinCRLF, parseHeaders]
  | cons l ls ih =>
    cases ls with
    | nil =>
      obtain ⟨h1, h2, h3⟩ := h l (by simp)
      simpa [joinCRLF] using parseHeaders_last r l h1 h2 h3
    | cons l2 ls2 =>
      obtain ⟨h1, h2, _⟩ := h l (by simp)
      rw [show joinCRLF (l :: l2 :: ls2) = l ++ '\r' :: '\n' :: joinCRLF (l2 :: ls2)
          from rfl]
      rw [parseHeaders_cons r l (joinCRLF (l2 :: ls2)) h1 h2]
      exact ih (specHeaderLine r l) (fun x hx => h x (List.mem_cons_of_mem l hx))

theorem c6_crlf_headers_routed_witness :
    parseHeaders emptyRequest (joinCRLF ["Host: x".data, "X-Trace: 7".data])
      = ["Host: x".data, "X-Trace: 7".data].foldl specHeaderLine emptyRequest :=
  c6_crlf_headers_routed emptyRequest ["Host: x".data, "X-Trace: 7".data]
    (by decide)

/-- C7: when the middleware at some position returns with the aborted
flag set, and the pipeline reached it normally, Execute stops with
exactly that context: the result does not depend on the remaining
middlewares or on the terminal handler, which are therefore never
invoked. -/
theorem c7_abort_skips_rest (ms1 : List Mw) (m : Mw) (ms2 : List Mw)
    (final : Mw) (c c1 c2 : FDContext)
    (h1 : runMws ms1 c = .through c1) (h2 : m c1 = .norm c2)
    (h3 : c2.aborted = true) :
    execute (ms1 ++ m :: ms2) final c = .done c2 := by
  have hrun : runMws (ms1 ++ m :: ms2) c = .stopped c2 := by
    rw [runMws_append, h1]
    simp [runMws, h2, h3]
  have hlen : ¬ (ms1 ++ m :: ms2).length = 0 := by simp
  simp [execute, hlen, hrun]

theorem c7_abort_skips_rest_witness :
    execute ([] ++ abortingMw :: [idMw]) idMw ({} : FDContext)
      = .done (FDContext.abort {}) :=
  c7_abort_skips_rest [] abortingMw [idMw] idMw {} {} (FDContext.abort {})
    rfl rfl rfl

/-- C8 counterexample: putting a slice of capacity 512 and length 3 into
a fresh pool stores it in the 512 class with length 512, not zero. -/
theorem c8_put_len_not_zero :
    newBytePool.put ⟨3, 512⟩
        = ⟨[(512, [⟨512, 512⟩]), (2048, []), (8192, []), (32768, [])]⟩
      ∧ ∀ cl ∈ (newBytePool.put ⟨3, 512⟩).classes, ∀ b ∈ cl.2, b.len ≠ 0 := by
  decide

/-- C8 (amended): Put routes by exact capacity: a slice whose capacity
matches no class size leaves the pool unchanged; a slice whose capacity
first matches the class at some position is pushed onto exactly that
class with both length and capacity equal to the class size, all other
classes untouched. -/
theorem c8_put_by_capacity (bp : BytePool) (buf : GoSlice) :
    (buf.cap ∉ bp.classes.map Prod.fst → bp.put buf = bp) ∧
    (∀ pre s l post, bp.classes = pre ++ (s, l) :: post →
      buf.cap ∉ pre.map Prod.fst → buf.cap = s →
      bp.put buf = ⟨pre ++ (s, ⟨s, s⟩ :: l) :: post⟩) := by
  constructor
  · intro hmem
    have : ∀ cls : List (Nat × List GoSlice), buf.cap ∉ cls.map Prod.fst →
        bytePoolPutAux cls buf = cls := by
      intro cls
      induction cls with
      | nil => intro _; rfl
      | cons p rest ih =>
        intro hm
        obtain ⟨s, l⟩ := p
        simp only [List.map_cons, List.mem_cons, not_or] at hm
        simp [bytePoolPutAux, hm.1, ih hm.2]
    obtain ⟨cls⟩ := bp
    simp only [BytePool.put]
    rw [this cls hmem]
  · intro pre s l post hsplit hpre hcap
    obtain ⟨cls⟩ := bp
    simp only at hsplit
    subst hsplit
    simp only [BytePool.put, BytePool.mk.injEq]
    induction pre with
    | nil => simp [bytePoolPutAux, hcap]
    | cons p pre ih =>
      obtain ⟨s0, l0⟩ := p
      simp only [List.map_cons, List.mem_cons, not_or] at hpre
      simp only [List.cons_append, bytePoolPutAux, if_neg hpre.1]
      exact congrArg (List.cons (s0, l0)) (ih hpre.2)

theorem c8_put_by_capacity_witness :
    (newBytePool.put ⟨7, 100⟩ = newBytePool) ∧
    (newBytePool.put ⟨3, 512⟩
      = ⟨[] ++ (512, (⟨512, 512⟩ : GoSlice) :: []) :: [(2048, []), (8192, []), (32768, [])]⟩) := by
  refine ⟨(c8_put_by_capacity newBytePool ⟨7, 100⟩).1 (by decide), ?_⟩
  exact (c8_put_by_capacity newBytePool ⟨3, 512⟩).2
    [] 512 [] [(2048, []), (8192, []), (32768, [])] rfl (by decide) rfl

/-- C9: Reset restores status 200, clears the aborted flag, zeroes the
inline parameter count, empties the overflow and response-header maps,
truncates the response buffer while keeping its capacity, and afterwards
Param answers empty for every key: nothing of the previous request is
observable. -/
theorem c9_reset_clears_state (c : FDContext) (fd : Int) (req : Option Request) :
    (c.reset fd req).statusCode = 200
      ∧ (c.reset fd req).aborted = false
      ∧ (c.reset fd req).paramCount = 0
      ∧ (c.reset fd req).paramMapOverflow = []
      ∧ (c.reset fd req).responseHeaders = []
      ∧ (c.reset fd req).responseBuf.data = []
      ∧ (c.reset fd req).responseBuf.cap = c.responseBuf.cap
      ∧ (∀ k, (c.reset fd req).paramGet k = []) :=
  ⟨rfl, rfl, rfl, rfl, rfl, rfl, rfl, fun _ => rfl⟩

/-- C10: Add on a pattern whose first byte is not a slash panics before
touching the tree: the function rejects the registration and returns no
modified root, for every router, method, handler and fuel. -/
theorem c10_add_requires_slash (fuel : Nat) (root : RNode) (method : String)
    (c : Char) (rest : List Char) (handler : Nat) (h : ¬ c = '/') :
    radixAdd fuel root method (c :: rest) handler
      = .panicked "path must begin with slash" := by
  simp [radixAdd, h]

theorem c10_add_requires_slash_witness :
    radixAdd 64 emptyNode "GET" ('x' :: []) 1
      = .panicked "path must begin with slash" :=
  c10_add_requires_slash 64 emptyNode "GET" 'x' [] 1 (by decide)

end FastServer
